import Mathlib

/-!
Shallow embedding of the import-path data model of
`include/swift/AST/Import.h` (the Swift AST's representation of
`import` declarations), together with theorems settling the spec's
claims about it.

Modelling choices:
* An `Identifier` is an interned string, so identifier equality is
  string equality.
* A `SourceLoc` is modelled as a natural number; `0` stands for the
  invalid/unset location (a null pointer in the source).
* An `ArrayRef<Located<Identifier>>` is modelled as a
  `List ImportPathElement`; the `ArrayRef` slicing operations
  (`take_front`, `take_back`, `drop_front`) become the corresponding
  list operations, and `drop_back`, whose LLVM implementation carries
  the precondition `assert(size() >= N)`, is modelled as an `Option`
  that is `none` exactly when that precondition is violated.
* A `ModuleDecl *` pointer is modelled as a natural number (its
  address); pointer identity is equality of these numbers.
-/

/-- Identifiers are interned by the ASTContext, so two identifiers are equal
exactly when their text is equal. -/
abbrev Identifier := String

/-- Source locations, modelled as numbers; `SourceLoc()` (invalid) is `0`. -/
abbrev SourceLoc := Nat

/-- The invalid/unset source location, `SourceLoc()`. -/
def SourceLoc.invalid : SourceLoc := 0

/-- One element of an import path: `Located<Identifier>`, an identifier
together with its source location. `Located::operator==` compares both
the item and the location. -/
structure ImportPathElement where
  item : Identifier
  loc : SourceLoc
deriving DecidableEq, Repr

/-- The raw backing of a path view: `llvm::ArrayRef<ImportPathElement>`,
modelled as a list. -/
abbrev ImportPathRaw := List ImportPathElement

/-- Embedding of `ImportPathBase::operator==`: true if the two paths are
precisely equal, including SourceLocs (`raw == other.raw`, elementwise). -/
def pathEqStrict (a b : ImportPathRaw) : Bool := a == b

/-- Embedding of `ImportPathBase::isSameAs`: true if the two paths contain
the same identifiers in the same order, ignoring SourceLocs
(`size() == other.size() && std::equal(..., l.Item == r.Item)`). -/
def isSameAs (a b : ImportPathRaw) : Bool :=
  a.length == b.length &&
    (a.zip b).all fun pr => pr.1.item == pr.2.item

/-- Embedding of `ImportPathBase::getTopLevelPath`: `raw.take_front()`. -/
def getTopLevelPath (p : ImportPathRaw) : ImportPathRaw := p.take 1

/-- Embedding of `llvm::ArrayRef::drop_back()` with its default argument
`N = 1`, including its own precondition `assert(size() >= N)`: `none`
models the assertion failure on a view with no element (in a release
build, `slice(0, size() - 1)` underflows there and never yields an empty
view either). -/
def arrayRefDropBack (p : ImportPathRaw) : Option ImportPathRaw :=
  if 1 ≤ p.length then some p.dropLast else none

/-- Embedding of `ImportPathBase::getParentPath`: `raw.drop_back()`. The
function's own assertion is the vacuous `size() >= 0`, but the underlying
`drop_back` keeps its `size() >= 1` precondition. -/
def getParentPath (p : ImportPathRaw) : Option ImportPathRaw :=
  arrayRefDropBack p

/-- The assertion guarding `getParentPath` itself in the source:
`assert(size() >= 0 && "nothing to take")`. -/
def getParentPathAssertion (p : ImportPathRaw) : Prop := p.length ≥ 0

/-- Embedding of `ArrayRef::take_back()` with its default argument `N = 1`:
if `N >= size()` the whole array, otherwise `drop_front(size() - N)`. -/
def takeBack (p : ImportPathRaw) : ImportPathRaw :=
  if p.length ≤ 1 then p else p.drop (p.length - 1)

/-- Embedding of `ImportPath::getModulePath(bool isScoped)`: drop the last
element when scoped, otherwise the whole raw path. -/
def getModulePath (p : ImportPathRaw) (isScoped : Bool) : ImportPathRaw :=
  if isScoped then p.dropLast else p

/-- Embedding of `ImportPath::getAccessPath(bool isScoped)`: the last
element (`getRaw().take_back()`) when scoped, otherwise the empty path. -/
def getAccessPath (p : ImportPathRaw) (isScoped : Bool) : ImportPathRaw :=
  if isScoped then takeBack p else []

/-- Modelled from the spec: `DeclName` and `DeclName::matchesRef` live in
`swift/AST/Identifier.h`, which is not under `src/`. Per the spec, a
one-element access path "matches only a name equal to its single
identifier", so a simple `DeclName` is an identifier and `matchesRef` is
identifier equality. -/
abbrev DeclName := Identifier

/-- Modelled from the spec: `DeclName(front().Item).matchesRef(name)` for a
simple name tests equality with that name. -/
def declNameMatchesRef (a n : DeclName) : Bool := a == n

/-- Embedding of `ImportPath::Access::matches`:
`empty() || DeclName(front().Item).matchesRef(name)`, written with the
short-circuit made explicit by pattern matching. -/
def accessMatches : ImportPathRaw → DeclName → Bool
  | [], _ => true
  | e :: _, n => declNameMatchesRef e.item n

-- Helper lemmas about the path predicates.

/-- Characterization of `isSameAs`: it holds exactly when the two paths
project to the same identifier sequence. -/
theorem isSameAs_iff_map (a b : ImportPathRaw) :
    isSameAs a b = true ↔ a.map (fun e => e.item) = b.map (fun e => e.item) := by
  induction a generalizing b with
  | nil =>
    cases b with
    | nil => simp [isSameAs]
    | cons y ys => simp [isSameAs]
  | cons x xs ih =>
    cases b with
    | nil => simp [isSameAs]
    | cons y ys =>
      simp only [isSameAs, List.zip_cons_cons, List.all_cons, List.map_cons,
        List.length_cons, List.cons.injEq]
      constructor
      · intro h
        rw [Bool.and_eq_true, Bool.and_eq_true] at h
        obtain ⟨hlen, hx, hall⟩ := h
        refine ⟨by simpa using hx, ?_⟩
        exact (ih ys).mp (by
          simp only [isSameAs]
          rw [Bool.and_eq_true]
          exact ⟨by simpa using hlen, hall⟩)
      · intro h
        obtain ⟨hx, hrest⟩ := h
        have hs := (ih ys).mpr hrest
        simp only [isSameAs, Bool.and_eq_true] at hs
        rw [Bool.and_eq_true, Bool.and_eq_true]
        exact ⟨by simpa using hs.1, by simpa using hx, hs.2⟩

/-- Strict path equality is propositional equality of the raw lists. -/
theorem pathEqStrict_iff (a b : ImportPathRaw) :
    pathEqStrict a b = true ↔ a = b := by
  simp [pathEqStrict]

/-- The `take_back()` slice is the drop of all but the last element. -/
theorem takeBack_eq_drop (p : ImportPathRaw) :
    takeBack p = p.drop (p.length - 1) := by
  unfold takeBack
  by_cases h : p.length ≤ 1
  · interval_cases hl : p.length
    · simp [List.eq_nil_of_length_eq_zero hl]
    · simp [hl]
  · simp [h]

/-- C1. For every ImportPath `p` with `size(p) ≥ 2`, `getModulePath(true)` is
the path with the last element dropped (size `size(p) - 1`),
`getAccessPath(true)` has size 1, and concatenating the module-path elements
with the access-path element reproduces `p` exactly. -/
theorem C1_scoped_split (p : ImportPathRaw) (h : 2 ≤ p.length) :
    (getModulePath p true).length = p.length - 1 ∧
    getModulePath p true = p.dropLast ∧
    (getAccessPath p true).length = 1 ∧
    getModulePath p true ++ getAccessPath p true = p := by
  have hne : p ≠ [] := by
    intro hnil; rw [hnil] at h; simp at h
  refine ⟨?_, rfl, ?_, ?_⟩
  · simp [getModulePath]
  · simp only [getAccessPath, if_pos, takeBack_eq_drop, List.length_drop]
    omega
  · simp only [getModulePath, getAccessPath, if_pos, takeBack_eq_drop]
    rw [List.dropLast_eq_take]
    exact List.take_append_drop (p.length - 1) p

/-- Witness for C1 at the concrete two-element path `Foo.Bar`. -/
theorem C1_scoped_split_witness :
    (2 ≤ ([⟨"Foo", 1⟩, ⟨"Bar", 2⟩] : ImportPathRaw).length) ∧
    ((getModulePath [⟨"Foo", 1⟩, ⟨"Bar", 2⟩] true).length = 1 ∧
      getModulePath [⟨"Foo", 1⟩, ⟨"Bar", 2⟩] true =
        ([⟨"Foo", 1⟩, ⟨"Bar", 2⟩] : ImportPathRaw).dropLast ∧
      (getAccessPath [⟨"Foo", 1⟩, ⟨"Bar", 2⟩] true).length = 1 ∧
      getModulePath [⟨"Foo", 1⟩, ⟨"Bar", 2⟩] true ++
        getAccessPath [⟨"Foo", 1⟩, ⟨"Bar", 2⟩] true = [⟨"Foo", 1⟩, ⟨"Bar", 2⟩]) :=
  ⟨by decide, C1_scoped_split [⟨"Foo", 1⟩, ⟨"Bar", 2⟩] (by decide)⟩

/-- Counterexample for C4: on the empty view, `getParentPath` violates the
precondition of the underlying `ArrayRef::drop_back` (a debug-build
assertion failure, an underflowing slice otherwise), so it does not
return an empty view there, refuting the no-trap claim at this concrete
input. -/
theorem C4_counterexample :
    getParentPath ([] : ImportPathRaw) = none ∧
    getParentPath ([] : ImportPathRaw) ≠ some [] := by
  decide

/-- C4 (amended). `getParentPath` drops exactly the last element and is
valid on every nonempty view, and its own assertion (`size() >= 0`) is
satisfied by every view including the empty one; but on an empty view the
underlying `ArrayRef::drop_back` precondition (`size() >= 1`) is
violated, so no empty view is returned there. -/
theorem C4_getParentPath_nonempty :
    (∀ (p : ImportPathRaw) (e : ImportPathElement),
      getParentPath (p ++ [e]) = some p) ∧
    (∀ p : ImportPathRaw, getParentPathAssertion p) ∧
    getParentPath [] = none := by
  refine ⟨?_, fun p => Nat.zero_le _, rfl⟩
  intro p e
  have h1 : 1 ≤ (p ++ [e]).length := by simp
  simp [getParentPath, arrayRefDropBack, h1]

/-- C6. An empty access path matches every name; a one-element access path
matches exactly the names equal to its single identifier. -/
theorem C6_accessMatches :
    (∀ n : DeclName, accessMatches [] n = true) ∧
    (∀ (i : Identifier) (l : SourceLoc) (n : DeclName),
      accessMatches [⟨i, l⟩] n = true ↔ n = i) := by
  refine ⟨fun n => rfl, fun i l n => ?_⟩
  simp only [accessMatches, declNameMatchesRef, beq_iff_eq]
  exact eq_comm

/-- Witness for C6: the path scoped to `A` matches `A`. -/
theorem C6_accessMatches_witness :
    accessMatches [⟨"A", 3⟩] "A" = true :=
  (C6_accessMatches.2 "A" 3 "A").mpr rfl

/-- C7. Two paths of the same length whose identifiers agree pairwise but
whose source locations differ somewhere satisfy `isSameAs = true` and
strict `== = false`. -/
theorem C7_sameAs_not_strict (a b : ImportPathRaw)
    (hlen : a.length = b.length)
    (hids : ((a.zip b).all fun pr => pr.1.item == pr.2.item) = true)
    (hloc : ((a.zip b).any fun pr => pr.1.loc != pr.2.loc) = true) :
    isSameAs a b = true ∧ pathEqStrict a b = false := by
  constructor
  · simp only [isSameAs, Bool.and_eq_true]
    exact ⟨by simpa using hlen, hids⟩
  · by_contra hne
    rw [Bool.not_eq_false, pathEqStrict_iff] at hne
    subst hne
    rw [List.any_eq_true] at hloc
    obtain ⟨pr, hmem, hpr⟩ := hloc
    have : pr.1 = pr.2 := by
      have := List.zip_eq_zipWith a a ▸ hmem
      obtain ⟨x, hx, rfl⟩ := by
        simpa [List.zipWith_same] using this
      rfl
    rw [this] at hpr
    simp at hpr

/-- Witness for C7 at paths `[A@1]` and `[A@2]`. -/
theorem C7_sameAs_not_strict_witness :
    isSameAs [⟨"A", 1⟩] [⟨"A", 2⟩] = true ∧
    pathEqStrict [⟨"A", 1⟩] [⟨"A", 2⟩] = false :=
  C7_sameAs_not_strict [⟨"A", 1⟩] [⟨"A", 2⟩] (by decide) (by decide) (by decide)

/-- C10. Strict equality refines `isSameAs`, and `isSameAs` is an
equivalence relation on path views. -/
theorem C10_refinement_equivalence :
    (∀ a b : ImportPathRaw, pathEqStrict a b = true → isSameAs a b = true) ∧
    (∀ a : ImportPathRaw, isSameAs a a = true) ∧
    (∀ a b : ImportPathRaw, isSameAs a b = true → isSameAs b a = true) ∧
    (∀ a b c : ImportPathRaw,
      isSameAs a b = true → isSameAs b c = true → isSameAs a c = true) := by
  refine ⟨?_, ?_, ?_, ?_⟩
  · intro a b h
    rw [pathEqStrict_iff] at h
    subst h
    exact (isSameAs_iff_map a a).mpr rfl
  · intro a
    exact (isSameAs_iff_map a a).mpr rfl
  · intro a b h
    exact (isSameAs_iff_map b a).mpr ((isSameAs_iff_map a b).mp h).symm
  · intro a b c hab hbc
    exact (isSameAs_iff_map a c).mpr
      (((isSameAs_iff_map a b).mp hab).trans ((isSameAs_iff_map b c).mp hbc))

/-- Witness for C10: transitivity applied at concrete paths. -/
theorem C10_refinement_equivalence_witness :
    isSameAs [⟨"A", 1⟩] [⟨"A", 3⟩] = true :=
  C10_refinement_equivalence.2.2.2 [⟨"A", 1⟩] [⟨"A", 2⟩] [⟨"A", 3⟩]
    (by decide) (by decide)

/-!
ImportedModule: a resolved module paired with an access path. The
`ModuleDecl *` pointer is modelled as a natural number (its address);
pointer identity is equality of these numbers.
-/

/-- Embedding of `swift::ImportedModule`: an access path together with the
imported module (a `ModuleDecl *`, modelled by its address). -/
structure ImportedModule where
  accessPath : ImportPathRaw
  importedModule : Nat
deriving DecidableEq, Repr

/-- Embedding of `ImportedModule::operator==`: pointer identity on the
module and strict (`operator==`, SourceLocs included) equality of the
access paths. -/
def importedModuleEq (a b : ImportedModule) : Bool :=
  (a.importedModule == b.importedModule) &&
    pathEqStrict a.accessPath b.accessPath

/-!
DenseMapInfo hashing. The hash helpers below are LLVM library code that is
not part of this repository; they are embedded faithfully from LLVM's
`DenseMapInfo.h` so that the hash contracts of §4.5 of the spec can be
stated over concrete functions.
-/

/-- Bitwise complement in 64 bits. -/
def not64 (x : Nat) : Nat := 2 ^ 64 - 1 - x % 2 ^ 64

/-- Modelled from the spec ("hash combination"): LLVM's
`detail::combineHashValue(unsigned, unsigned)`, a 64-bit mix of the two
32-bit inputs truncated back to 32 bits; LLVM's `DenseMapInfo.h` is not
part of this repository. -/
def combineHashValue (a b : Nat) : Nat :=
  let key : Nat := (a % 2 ^ 32) * 2 ^ 32 + b % 2 ^ 32
  let key := (key + not64 (key * 2 ^ 32)) % 2 ^ 64
  let key := Nat.xor key (key / 2 ^ 22) % 2 ^ 64
  let key := (key + not64 (key * 2 ^ 13)) % 2 ^ 64
  let key := Nat.xor key (key / 2 ^ 8) % 2 ^ 64
  let key := (key + key * 2 ^ 3) % 2 ^ 64
  let key := Nat.xor key (key / 2 ^ 15) % 2 ^ 64
  let key := (key + not64 (key * 2 ^ 27)) % 2 ^ 64
  let key := Nat.xor key (key / 2 ^ 31) % 2 ^ 64
  key % 2 ^ 32

/-- Modelled from the spec ("access-path length ... identity" hashing):
LLVM's `DenseMapInfo<size_t>::getHashValue`, `(unsigned)(Val * 37ULL)`. -/
def hashSizeT (v : Nat) : Nat := v * 37 % 2 ^ 32

/-- Modelled from the spec ("module identity" hashing): LLVM's
`DenseMapInfo<T *>::getHashValue`,
`(unsigned(PtrVal) >> 4) ^ (unsigned(PtrVal) >> 9)`. -/
def hashPointer (p : Nat) : Nat :=
  Nat.xor (p % 2 ^ 32 / 2 ^ 4) (p % 2 ^ 32 / 2 ^ 9)

/-- Embedding of `DenseMapInfo<swift::ImportedModule>::getHashValue`: the
pair hash of the access path's size and the module pointer. -/
def importedModuleGetHashValue (m : ImportedModule) : Nat :=
  combineHashValue (hashSizeT m.accessPath.length) (hashPointer m.importedModule)

/-- Embedding of `DenseMapInfo<swift::ImportedModule>::isEqual`: pointer
identity on the module and `isSameAs` (location-insensitive) equality of
the access paths. -/
def importedModuleIsEqual (a b : ImportedModule) : Bool :=
  (a.importedModule == b.importedModule) &&
    isSameAs a.accessPath b.accessPath

/-- Counterexample for C2: two ImportedModule values with the same module
pointer and semantically-equal access paths differing only in source
location are not `operator==`-equal, because `operator==` compares access
paths strictly (SourceLocs included); the claimed iff fails at this
concrete input. -/
theorem C2_counterexample :
    ¬ (importedModuleEq ⟨[⟨"A", 1⟩], 7⟩ ⟨[⟨"A", 2⟩], 7⟩ = true ↔
        ((⟨[⟨"A", 1⟩], 7⟩ : ImportedModule).importedModule =
            (⟨[⟨"A", 2⟩], 7⟩ : ImportedModule).importedModule ∧
          isSameAs [⟨"A", 1⟩] [⟨"A", 2⟩] = true)) := by
  decide

/-- C2 (amended). `ImportedModule::operator==` holds exactly when the two
values refer to the same module (pointer identity) and their access paths
are strictly equal, source locations included. -/
theorem C2_eq_strict (a b : ImportedModule) :
    importedModuleEq a b = true ↔
      (a.importedModule = b.importedModule ∧ a.accessPath = b.accessPath) := by
  simp only [importedModuleEq, Bool.and_eq_true, beq_iff_eq, pathEqStrict_iff]

/-- Witness for C2 (amended) at a concrete equal pair. -/
theorem C2_eq_strict_witness :
    importedModuleEq ⟨[⟨"A", 1⟩], 7⟩ ⟨[⟨"A", 1⟩], 7⟩ = true :=
  (C2_eq_strict ⟨[⟨"A", 1⟩], 7⟩ ⟨[⟨"A", 1⟩], 7⟩).mpr ⟨rfl, rfl⟩

/-- C3. Two ImportedModule values with the same module pointer and
semantically-equal access paths hash identically and are
`DenseMapInfo::isEqual`-equal; two with different module pointers are
never `isEqual`-equal. -/
theorem C3_denseMapInfo (a b : ImportedModule) :
    (isSameAs a.accessPath b.accessPath = true →
      a.importedModule = b.importedModule →
      importedModuleGetHashValue a = importedModuleGetHashValue b ∧
        importedModuleIsEqual a b = true) ∧
    (a.importedModule ≠ b.importedModule → importedModuleIsEqual a b = false) := by
  constructor
  · intro hsame hmod
    have hlen : a.accessPath.length = b.accessPath.length := by
      have := congrArg List.length ((isSameAs_iff_map _ _).mp hsame)
      simpa using this
    constructor
    · unfold importedModuleGetHashValue
      rw [hlen, hmod]
    · simp only [importedModuleIsEqual, Bool.and_eq_true, beq_iff_eq]
      exact ⟨hmod, hsame⟩
  · intro hne
    simp only [importedModuleIsEqual, Bool.and_eq_false_iff, beq_eq_false_iff_ne, ne_eq]
    exact Or.inl hne

/-- Witness for C3: same module with location-differing paths hashes and
compares equal; a different module is not equal. -/
theorem C3_denseMapInfo_witness :
    (importedModuleGetHashValue ⟨[⟨"A", 1⟩], 7⟩ =
        importedModuleGetHashValue ⟨[⟨"A", 2⟩], 7⟩ ∧
      importedModuleIsEqual ⟨[⟨"A", 1⟩], 7⟩ ⟨[⟨"A", 2⟩], 7⟩ = true) ∧
    importedModuleIsEqual ⟨[⟨"A", 1⟩], 7⟩ ⟨[⟨"A", 1⟩], 8⟩ = false :=
  ⟨(C3_denseMapInfo ⟨[⟨"A", 1⟩], 7⟩ ⟨[⟨"A", 2⟩], 7⟩).1 (by decide) rfl,
    (C3_denseMapInfo ⟨[⟨"A", 1⟩], 7⟩ ⟨[⟨"A", 1⟩], 8⟩).2 (by decide)⟩

/-!
ImportOptions and AttributedImport. `ImportOptions` is an
`OptionSet<ImportFlags>` over a `uint8_t` storage; it is modelled by its
raw value.
-/

/-- Embedding of `swift::ImportOptions`, modelled by the raw `uint8_t`
bit-set value of the `OptionSet`. -/
abbrev ImportOptions := Nat

/-- The `ImportFlags::Exported` bit, `0x1`. -/
def ImportFlags.Exported : ImportOptions := 0x1

/-- The `ImportFlags::Testable` bit, `0x2`. -/
def ImportFlags.Testable : ImportOptions := 0x2

/-- The `ImportFlags::PrivateImport` bit, `0x4`. -/
def ImportFlags.PrivateImport : ImportOptions := 0x4

/-- The `ImportFlags::ImplementationOnly` bit, `0x8`. -/
def ImportFlags.ImplementationOnly : ImportOptions := 0x8

/-- The `ImportFlags::SPIAccessControl` bit, `0x10`. -/
def ImportFlags.SPIAccessControl : ImportOptions := 0x10

/-- The `ImportFlags::Reserved` bit, `0x80`, used for DenseMap sentinels. -/
def ImportFlags.Reserved : ImportOptions := 0x80

/-- Modelled from the spec ("bit-set supporting ... membership test"):
`OptionSet::contains`, from `swift/Basic/OptionSet.h` which is not under
`src/`; membership is a nonzero bitwise intersection with the flag. -/
def optionsContains (o f : ImportOptions) : Bool := Nat.land o f != 0

/-- Embedding of the assertion in `AttributedImport`'s constructor:
`!(contains(Exported) && contains(ImplementationOnly)) || contains(Reserved)`. -/
def attributedImportAssertion (opts : ImportOptions) : Bool :=
  !(optionsContains opts ImportFlags.Exported &&
      optionsContains opts ImportFlags.ImplementationOnly) ||
    optionsContains opts ImportFlags.Reserved

/-- Embedding of `swift::AttributedImport<ModuleInfo>`: a module payload
with options, the `@_private` filename and the SPI group names. -/
structure AttributedImport (M : Type) where
  module : M
  importOptions : ImportOptions
  filename : String
  spiGroups : List Identifier

/-- Embedding of the `AttributedImport` constructor: construction succeeds
(returns a value) exactly when its assertion holds, and fails otherwise. -/
def mkAttributedImport? {M : Type} (m : M) (opts : ImportOptions)
    (filename : String) (spiGroups : List Identifier) :
    Option (AttributedImport M) :=
  if attributedImportAssertion opts then some ⟨m, opts, filename, spiGroups⟩
  else none

/-- C5. Constructing an AttributedImport from any option set containing
both Exported and ImplementationOnly but not Reserved fails the
constructor's assertion; from any option set containing Reserved,
construction succeeds. -/
theorem C5_constructor_invariant (M : Type) (m : M) (fn : String)
    (spi : List Identifier) :
    (∀ opts : ImportOptions,
      optionsContains opts ImportFlags.Exported = true →
      optionsContains opts ImportFlags.ImplementationOnly = true →
      optionsContains opts ImportFlags.Reserved = false →
      mkAttributedImport? m opts fn spi = none) ∧
    (∀ opts : ImportOptions, optionsContains opts ImportFlags.Reserved = true →
      (mkAttributedImport? m opts fn spi).isSome = true) := by
  constructor
  · intro opts h1 h2 h3
    have h : attributedImportAssertion opts = false := by
      simp [attributedImportAssertion, h1, h2, h3]
    simp [mkAttributedImport?, h]
  · intro opts hres
    have h : attributedImportAssertion opts = true := by
      simp [attributedImportAssertion, hres]
    simp [mkAttributedImport?, h]

/-- Witness for C5 at concrete inputs: options `0x0B` (Exported, Testable
and ImplementationOnly, without Reserved) fail construction, while `0x89`
(Exported, ImplementationOnly and Reserved) constructs successfully. -/
theorem C5_constructor_invariant_witness :
    mkAttributedImport? (0 : Nat) 0x0B "" [] = none ∧
    (mkAttributedImport? (0 : Nat) 0x89 "" []).isSome = true :=
  ⟨(C5_constructor_invariant Nat 0 "" []).1 0x0B (by decide) (by decide)
      (by decide),
    (C5_constructor_invariant Nat 0 "" []).2 0x89 (by decide)⟩

/-!
DenseMapInfo for AttributedImport, instantiated as in the repository at
`ImportedModuleDesc = AttributedImport<ImportedModule>`.
-/

/-- Embedding of `DenseMapInfo<swift::ImportOptions>::getHashValue`:
hash the raw `uint8_t` value with LLVM's unsigned-char hash `Val * 37U`
(LLVM's `DenseMapInfo.h` is not part of this repository). -/
def importOptionsGetHashValue (o : ImportOptions) : Nat :=
  o % 2 ^ 8 * 37 % 2 ^ 32

/-- Embedding of `DenseMapInfo<swift::ImportOptions>::isEqual`: equality
of the raw `uint8_t` values. -/
def importOptionsIsEqual (a b : ImportOptions) : Bool :=
  a % 2 ^ 8 == b % 2 ^ 8

/-- Modelled from the spec ("the filename hash"): LLVM's
`DenseMapInfo<StringRef>::getHashValue` is an opaque string hash outside
this repository; any deterministic string hash satisfies the stated
contracts, so a polynomial hash over the bytes stands in for it. -/
def hashStringRef (s : String) : Nat :=
  s.foldl (fun h c => (h * 33 + c.toNat) % 2 ^ 32) 5381

/-- Embedding of `DenseMapInfo<StringRef>::isEqual` on ordinary values:
string content equality. -/
def stringRefIsEqual (a b : String) : Bool := a == b

/-- The repository's `ImportedModuleDesc = AttributedImport<ImportedModule>`. -/
abbrev ImportedModuleDesc := AttributedImport ImportedModule

/-- Embedding of
`DenseMapInfo<swift::AttributedImport<ModuleInfo>>::getHashValue` at
`ModuleInfo = ImportedModule`: combines the module-info hash, the
options hash and the filename hash; the SPI group list is not hashed. -/
def attributedImportGetHashValue (i : ImportedModuleDesc) : Nat :=
  combineHashValue (importedModuleGetHashValue i.module)
    (combineHashValue (importOptionsGetHashValue i.importOptions)
      (hashStringRef i.filename))

/-- Embedding of
`DenseMapInfo<swift::AttributedImport<ModuleInfo>>::isEqual` at
`ModuleInfo = ImportedModule`: compares module, options and filename; the
SPI group list is not compared. -/
def attributedImportIsEqual (a b : ImportedModuleDesc) : Bool :=
  importedModuleIsEqual a.module b.module &&
    importOptionsIsEqual a.importOptions b.importOptions &&
    stringRefIsEqual a.filename b.filename

/-- The DenseMapInfo equality on ImportedModule is reflexive. -/
theorem importedModuleIsEqual_refl (a : ImportedModule) :
    importedModuleIsEqual a a = true := by
  simp only [importedModuleIsEqual, Bool.and_eq_true]
  exact ⟨by simp, (isSameAs_iff_map _ _).mpr rfl⟩

/-- C9. Two AttributedImport values agreeing on module, options and
filename but with different SPI group lists hash identically and are
`isEqual`-equal: SPI groups are excluded from both the hash and the key
equality. -/
theorem C9_spiGroups_excluded (a b : ImportedModuleDesc)
    (h1 : a.module = b.module) (h2 : a.importOptions = b.importOptions)
    (h3 : a.filename = b.filename) (_h4 : a.spiGroups ≠ b.spiGroups) :
    attributedImportGetHashValue a = attributedImportGetHashValue b ∧
    attributedImportIsEqual a b = true := by
  constructor
  · unfold attributedImportGetHashValue
    rw [h1, h2, h3]
  · simp only [attributedImportIsEqual, Bool.and_eq_true]
    refine ⟨⟨?_, ?_⟩, ?_⟩
    · rw [h1]; exact importedModuleIsEqual_refl b.module
    · simp [importOptionsIsEqual, h2]
    · simp [stringRefIsEqual, h3]

/-- Witness for C9 at two concrete imports differing only in SPI groups. -/
theorem C9_spiGroups_excluded_witness :
    attributedImportGetHashValue ⟨⟨[⟨"A", 1⟩], 7⟩, 0x10, "f", ["g1"]⟩ =
        attributedImportGetHashValue ⟨⟨[⟨"A", 1⟩], 7⟩, 0x10, "f", ["g2"]⟩ ∧
    attributedImportIsEqual ⟨⟨[⟨"A", 1⟩], 7⟩, 0x10, "f", ["g1"]⟩
        ⟨⟨[⟨"A", 1⟩], 7⟩, 0x10, "f", ["g2"]⟩ = true :=
  C9_spiGroups_excluded ⟨⟨[⟨"A", 1⟩], 7⟩, 0x10, "f", ["g1"]⟩
    ⟨⟨[⟨"A", 1⟩], 7⟩, 0x10, "f", ["g2"]⟩ rfl rfl rfl (by decide)

/-!
The string-splitting `ImportPathBuilder` constructor. Text is modelled as
a list of characters; `StringRef::split(char)` becomes `splitOnce`.
-/

/-- Modelled from the spec ("intern each token as an identifier via the
context"): the `ASTContext` is represented by its interning function; the
shim `ImportPathBuilder_getIdentifierImpl` is declared in `src` but
implemented elsewhere in the repository. -/
structure ASTContext where
  intern : String → Identifier

/-- The `ImportPathBuilder_getIdentifierImpl` shim: intern a string in the
context. -/
def importPathBuilderGetIdentifierImpl (ctx : ASTContext) (s : String) :
    Identifier :=
  ctx.intern s

/-- Embedding of `StringRef::split(char)`: the pair of the text before the
first separator and the text after it; when the separator does not occur,
the whole text and the empty suffix. -/
def splitOnce (sep : Char) : List Char → List Char × List Char
  | [] => ([], [])
  | c :: cs =>
    if c = sep then ([], cs)
    else
      let pr := splitOnce sep cs
      (c :: pr.1, pr.2)

/-- The suffix returned by `splitOnce` is strictly shorter than a nonempty
input, so the builder's while loop terminates. -/
theorem splitOnce_snd_length_lt (sep : Char) (l : List Char) (h : l ≠ []) :
    (splitOnce sep l).2.length < l.length := by
  induction l with
  | nil => exact absurd rfl h
  | cons c cs ih =>
    simp only [splitOnce]
    by_cases hc : c = sep
    · simp [hc]
    · simp only [if_neg hc]
      cases cs with
      | nil => simp [splitOnce]
      | cons d ds =>
        have hlt := ih (by simp)
        simpa using Nat.lt_succ_of_lt hlt

/-- The token sequence produced by the builder's while loop: while the text
is nonempty, split off the next token and continue on the remainder. -/
def splitTokens (sep : Char) (text : List Char) : List (List Char) :=
  if _h : text = [] then []
  else (splitOnce sep text).1 :: splitTokens sep (splitOnce sep text).2
termination_by text.length
decreasing_by exact splitOnce_snd_length_lt sep text _h

/-- Embedding of the string-splitting
`ImportPathBuilder(ASTContext &, StringRef, char)` constructor: while the
text is nonempty, split at the separator, intern the token and append it
as an element with the invalid source location. -/
def builderFromText (ctx : ASTContext) (sep : Char) (text : List Char) :
    List ImportPathElement :=
  if _h : text = [] then []
  else
    ⟨importPathBuilderGetIdentifierImpl ctx (String.mk (splitOnce sep text).1),
        SourceLoc.invalid⟩ ::
      builderFromText ctx sep (splitOnce sep text).2
termination_by text.length
decreasing_by exact splitOnce_snd_length_lt sep text _h

/-- The builder loop interns exactly the split tokens, in order. -/
theorem builderFromText_eq_map (ctx : ASTContext) (sep : Char) :
    ∀ (n : Nat) (text : List Char), text.length ≤ n →
      builderFromText ctx sep text =
        (splitTokens sep text).map
          (fun tok => ⟨importPathBuilderGetIdentifierImpl ctx (String.mk tok),
            SourceLoc.invalid⟩) := by
  intro n
  induction n with
  | zero =>
    intro text h
    have htext : text = [] := List.eq_nil_of_length_eq_zero (Nat.le_zero.mp h)
    subst htext
    rw [builderFromText, splitTokens]
    simp
  | succ n ih =>
    intro text h
    by_cases htext : text = []
    · subst htext
      rw [builderFromText, splitTokens]
      simp
    · rw [builderFromText, splitTokens]
      simp only [dif_neg htext, List.map_cons, List.cons.injEq]
      refine ⟨trivial, ?_⟩
      apply ih
      have hlt := splitOnce_snd_length_lt sep text htext
      omega

/-- C8. The string-splitting builder constructor is total: for every text
and separator it produces exactly the split tokens, each interned through
the context as-is (no validation) and appended with the invalid source
location. -/
theorem C8_string_builder (ctx : ASTContext) (sep : Char) (text : List Char) :
    builderFromText ctx sep text =
      (splitTokens sep text).map
        (fun tok => ⟨importPathBuilderGetIdentifierImpl ctx (String.mk tok),
          SourceLoc.invalid⟩) ∧
    ∀ e ∈ builderFromText ctx sep text, e.loc = SourceLoc.invalid := by
  have hmap := builderFromText_eq_map ctx sep text.length text (Nat.le_refl _)
  refine ⟨hmap, ?_⟩
  intro e he
  rw [hmap] at he
  simp only [List.mem_map] at he
  obtain ⟨tok, _, rfl⟩ := he
  rfl

/-- Witness for C8 on the concrete text `Foo.Bar` with separator `.`:
the element built for `Foo` carries the invalid source location. -/
theorem C8_string_builder_witness :
    (⟨"Foo", SourceLoc.invalid⟩ : ImportPathElement).loc = SourceLoc.invalid :=
  (C8_string_builder ⟨fun s => s⟩ '.'
      ['F', 'o', 'o', '.', 'B', 'a', 'r']).2 ⟨"Foo", SourceLoc.invalid⟩
    (by
      rw [builderFromText, builderFromText]
      simp [splitOnce, importPathBuilderGetIdentifierImpl, String.mk])
